import Mathlib

/-
Shallow embedding of the rate-limiter durable object
(src/durable-object.ts) of orpc-do-rate-limiter.

Numbers (epoch milliseconds, counts, window lengths) are modelled as Int:
all arithmetic the code performs on them is exact integer arithmetic in
JavaScript doubles for the ranges involved, and Int avoids truncated
subtraction (the code computes now - windowMs, which can be negative).

Keyed durable storage is modelled as an association list from string keys
to entries; storage.get is first-match lookup, storage.put replaces the
binding in place or appends, storage.delete(keys) filters the keys out,
storage.list enumerates the list itself.
-/

namespace OrpcDoRateLimiter

/-- The RateLimitEntry record stored per identifier: count of accepted
events in the current window, window start timestamp, and the window
length in effect when the entry was last written. -/
structure RateLimitEntry where
  count : Int
  timestamp : Int
  windowMs : Int
deriving DecidableEq, Repr

/-- The object returned by checkLimit. -/
structure RateLimitResult where
  success : Bool
  remaining : Int
  reset : Int
  limit : Int
deriving DecidableEq, Repr

/-- Keyed durable storage, an association list keyed by identifier. -/
abbrev Store := List (String × RateLimitEntry)

/-- storage.get: first-match lookup by key. -/
def Store.get (s : Store) (k : String) : Option RateLimitEntry :=
  List.lookup k s

/-- storage.put: replace the existing binding for the key, or append. -/
def Store.put : Store → String → RateLimitEntry → Store
  | [], k, e => [(k, e)]
  | (k', e') :: rest, k, e =>
      if k' = k then (k, e) :: rest else (k', e') :: Store.put rest k e

/-- storage.delete(keys): remove every binding whose key is listed. -/
def Store.deleteKeys (s : Store) (ks : List String) : Store :=
  s.filter (fun p => !ks.contains p.1)

/-- CLEANUP_INTERVAL_MS constant: 12 hours in milliseconds. -/
def CLEANUP_INTERVAL_MS : Int := 12 * 60 * 60 * 1000

/-- checkLimit(identifier, max, windowMs), durable-object.ts lines 64 to 104,
run at instant now against storage; returns the result object and the
post-call storage.  Mirrors the source: windowStart is now - windowMs from
the current call's windowMs argument; a missing entry or one with
entry.timestamp < windowStart opens a fresh window (count 1, timestamp now,
windowMs as passed); an active entry at or above max is rejected without a
write; otherwise count is incremented and windowMs overwritten, and reset
is entry.timestamp + windowMs with the argument windowMs. -/
def checkLimit (storage : Store) (now : Int) (identifier : String)
    (max : Int) (windowMs : Int) : RateLimitResult × Store :=
  let windowStart := now - windowMs
  match Store.get storage identifier with
  | none =>
      let entry : RateLimitEntry := { count := 1, timestamp := now, windowMs := windowMs }
      ({ success := true, remaining := max - 1, reset := now + windowMs, limit := max },
        Store.put storage identifier entry)
  | some entry =>
      if entry.timestamp < windowStart then
        let fresh : RateLimitEntry := { count := 1, timestamp := now, windowMs := windowMs }
        ({ success := true, remaining := max - 1, reset := now + windowMs, limit := max },
          Store.put storage identifier fresh)
      else if entry.count ≥ max then
        ({ success := false, remaining := 0,
            reset := entry.timestamp + windowMs, limit := max }, storage)
      else
        let entry' : RateLimitEntry :=
          { count := entry.count + 1, timestamp := entry.timestamp, windowMs := windowMs }
        ({ success := true, remaining := max - entry'.count,
            reset := entry.timestamp + windowMs, limit := max },
          Store.put storage identifier entry')

/-- The expiration test of the alarm sweep: entry.timestamp + entry.windowMs < now. -/
def expired (now : Int) (e : RateLimitEntry) : Bool :=
  e.timestamp + e.windowMs < now

/-- Everything one alarm() invocation produces: the post-sweep storage, the
keys collected as expired, whether storage.delete was invoked at all, and
the alarm deadline set by the final setAlarm. -/
structure AlarmOutcome where
  store : Store
  expiredKeys : List String
  deleteCalled : Bool
  alarmDeadline : Option Int
deriving DecidableEq, Repr

/-- alarm(), durable-object.ts lines 31 to 54, the expiry sweep.  The code
reads Date.now() twice, once before the scan (now) and once after the
delete when rescheduling (nowAtReschedule); both are parameters.  Every
entry with entry.timestamp + entry.windowMs < now has its key collected;
storage.delete is invoked only when that key list is nonempty; the alarm is
then always re-set to nowAtReschedule + CLEANUP_INTERVAL_MS. -/
def alarm (storage : Store) (now : Int) (nowAtReschedule : Int) : AlarmOutcome :=
  let expiredKeys := (storage.filter (fun p => expired now p.2)).map Prod.fst
  if expiredKeys.length > 0 then
    { store := Store.deleteKeys storage expiredKeys, expiredKeys := expiredKeys,
      deleteCalled := true,
      alarmDeadline := some (nowAtReschedule + CLEANUP_INTERVAL_MS) }
  else
    { store := storage, expiredKeys := expiredKeys, deleteCalled := false,
      alarmDeadline := some (nowAtReschedule + CLEANUP_INTERVAL_MS) }

/-- scheduleCleanup(), durable-object.ts lines 109 to 115, run in the
constructor under blockConcurrencyWhile: given the currently pending alarm
deadline (none when no alarm is set), it returns the deadline afterwards:
an existing deadline is left untouched, otherwise one is set
CLEANUP_INTERVAL_MS after now. -/
def scheduleCleanup (existingAlarm : Option Int) (now : Int) : Option Int :=
  match existingAlarm with
  | none => some (now + CLEANUP_INTERVAL_MS)
  | some t => some t

/-- Storage after k consecutive checkLimit calls with a fixed identifier,
max and windowMs, the k-th call happening at instant times k. -/
def runCalls (s : Store) (times : Nat → Int) (identifier : String)
    (max windowMs : Int) : Nat → Store
  | 0 => s
  | k + 1 =>
      (checkLimit (runCalls s times identifier max windowMs k) (times k)
        identifier max windowMs).2

/-- Result returned by call number k (zero-indexed) of that sequence. -/
def callResult (s : Store) (times : Nat → Int) (identifier : String)
    (max windowMs : Int) (k : Nat) : RateLimitResult :=
  (checkLimit (runCalls s times identifier max windowMs k) (times k)
    identifier max windowMs).1

/-- One operation the durable object can serve: a checkLimit call, or an
alarm sweep (with its two Date.now() reads). -/
inductive Op where
  | check (now : Int) (identifier : String) (max windowMs : Int)
  | sweep (now nowAtReschedule : Int)
deriving DecidableEq, Repr

/-- The storage left behind by one operation. -/
def applyOp (s : Store) : Op → Store
  | Op.check now identifier max windowMs => (checkLimit s now identifier max windowMs).2
  | Op.sweep now nowAtReschedule => (alarm s now nowAtReschedule).store

/-- The storage after a whole sequence of operations. -/
def runOps : Store → List Op → Store
  | s, [] => s
  | s, op :: rest => runOps (applyOp s op) rest

/-- Every entry in storage has a strictly positive count. -/
def countsPos (s : Store) : Prop := ∀ p ∈ s, 0 < p.2.count

/-- Lookup on the empty storage is empty. -/
theorem Store.get_nil (k : String) : Store.get [] k = none := rfl

/-- Lookup distributes over cons as a test on key equality. -/
theorem Store.get_cons (k0 : String) (e0 : RateLimitEntry) (rest : Store) (k : String) :
    Store.get ((k0, e0) :: rest) k = if k = k0 then some e0 else Store.get rest k := by
  by_cases h : k = k0
  · simp [Store.get, List.lookup, h]
  · have hb : (k == k0) = false := beq_eq_false_iff_ne.mpr h
    simp [Store.get, List.lookup, hb, h]

/-- Looking up the key just written returns the written entry. -/
theorem Store.get_put_self (s : Store) (k : String) (e : RateLimitEntry) :
    Store.get (Store.put s k e) k = some e := by
  induction s with
  | nil => simp [Store.put, Store.get_cons]
  | cons p rest ih =>
    obtain ⟨k', e'⟩ := p
    by_cases h : k' = k
    · simp [Store.put, h, Store.get_cons]
    · simp [Store.put, h, Store.get_cons, Ne.symm h, ih]

/-- Writing one key leaves lookups of every other key unchanged. -/
theorem Store.get_put_ne (s : Store) (k : String) (e : RateLimitEntry)
    (k' : String) (h : k' ≠ k) :
    Store.get (Store.put s k e) k' = Store.get s k' := by
  induction s with
  | nil => simp [Store.put, Store.get_cons, Store.get_nil, h]
  | cons p rest ih =>
    obtain ⟨k0, e0⟩ := p
    by_cases hk : k0 = k
    · subst hk
      simp [Store.put, Store.get_cons, h]
    · by_cases hk' : k' = k0 <;>
        simp [Store.put, hk, Store.get_cons, hk', ih]

/-- Every binding of the storage after a put is either the written binding
or a binding that was already present. -/
theorem Store.mem_put (s : Store) (k : String) (e : RateLimitEntry)
    (p : String × RateLimitEntry) (hp : p ∈ Store.put s k e) :
    p = (k, e) ∨ p ∈ s := by
  induction s with
  | nil => simpa [Store.put] using hp
  | cons q rest ih =>
    obtain ⟨k0, e0⟩ := q
    by_cases hk : k0 = k
    · simp [Store.put, hk] at hp
      rcases hp with h | h
      · exact Or.inl (by simp [h])
      · exact Or.inr (List.mem_cons_of_mem _ h)
    · simp [Store.put, hk] at hp
      rcases hp with h | h
      · exact Or.inr (by simp [h])
      · rcases ih h with h' | h'
        · exact Or.inl h'
        · exact Or.inr (List.mem_cons_of_mem _ h')

/-- A successful lookup returns a binding present in the storage. -/
theorem Store.get_mem (s : Store) (k : String) (e : RateLimitEntry)
    (h : Store.get s k = some e) : (k, e) ∈ s := by
  induction s with
  | nil => simp [Store.get_nil] at h
  | cons q rest ih =>
    obtain ⟨k0, e0⟩ := q
    by_cases hk : k = k0
    · subst hk
      rw [Store.get_cons] at h
      simp at h
      simp [h]
    · rw [Store.get_cons] at h
      simp [hk] at h
      exact List.mem_cons_of_mem _ (ih h)

/-- checkLimit on a missing entry opens a fresh window. -/
theorem checkLimit_none (s : Store) (now : Int) (identifier : String)
    (max windowMs : Int) (h : Store.get s identifier = none) :
    checkLimit s now identifier max windowMs =
      ({ success := true, remaining := max - 1, reset := now + windowMs, limit := max },
        Store.put s identifier { count := 1, timestamp := now, windowMs := windowMs }) := by
  simp [checkLimit, h]

/-- checkLimit on a present entry, characterized branch by branch.  The
branch conditions only involve the current call's windowMs argument; the
code rewrites the test entry.timestamp < now - windowMs as
entry.timestamp + windowMs < now. -/
theorem checkLimit_some (s : Store) (now : Int) (identifier : String)
    (max windowMs : Int) (entry : RateLimitEntry)
    (h : Store.get s identifier = some entry) :
    checkLimit s now identifier max windowMs =
      if entry.timestamp + windowMs < now then
        ({ success := true, remaining := max - 1, reset := now + windowMs, limit := max },
          Store.put s identifier { count := 1, timestamp := now, windowMs := windowMs })
      else if entry.count ≥ max then
        ({ success := false, remaining := 0,
            reset := entry.timestamp + windowMs, limit := max }, s)
      else
        ({ success := true, remaining := max - (entry.count + 1),
            reset := entry.timestamp + windowMs, limit := max },
          Store.put s identifier
            { count := entry.count + 1, timestamp := entry.timestamp,
              windowMs := windowMs }) := by
  by_cases hexp : entry.timestamp + windowMs < now
  · have h1 : entry.timestamp < now - windowMs := by omega
    simp [checkLimit, h, h1, hexp]
  · have h1 : ¬ entry.timestamp < now - windowMs := by omega
    by_cases hc : entry.count ≥ max
    · simp [checkLimit, h, h1, hc, hexp]
    · simp [checkLimit, h, h1, hc, hexp]

/-- C2 counterexample: with a stored entry whose own window has NOT yet
elapsed by its recorded windowMs (timestamp 0, stored windowMs 100, now 50,
so 0 + 100 < 50 is false), a call passing windowMs 10 nevertheless starts a
fresh window (count reset to 1, timestamp set to 50): the fresh-window
decision is not made by the stored windowMs test the claim states. -/
theorem checkLimit_expiry_stored_window_cex :
    ¬ ((0 : Int) + 100 < 50) ∧
    (checkLimit [("k", { count := 1, timestamp := 0, windowMs := 100 })] 50 "k" 5 10).2 =
      [("k", { count := 1, timestamp := 50, windowMs := 10 })] := by
  decide

/-- C2 (corrected): when a stored entry exists, the decision that the
window has fully elapsed (and a fresh window is started) is made precisely
by the test entry.timestamp < now - windowMs, equivalently
entry.timestamp + windowMs < now, using the windowMs ARGUMENT of the
current call; the entry's stored windowMs is not consulted anywhere in
checkLimit, as this full branch characterization shows. -/
theorem checkLimit_expiry_uses_call_window (s : Store) (now : Int)
    (identifier : String) (max windowMs : Int) (entry : RateLimitEntry)
    (h : Store.get s identifier = some entry) :
    checkLimit s now identifier max windowMs =
      if entry.timestamp + windowMs < now then
        ({ success := true, remaining := max - 1, reset := now + windowMs, limit := max },
          Store.put s identifier { count := 1, timestamp := now, windowMs := windowMs })
      else if entry.count ≥ max then
        ({ success := false, remaining := 0,
            reset := entry.timestamp + windowMs, limit := max }, s)
      else
        ({ success := true, remaining := max - (entry.count + 1),
            reset := entry.timestamp + windowMs, limit := max },
          Store.put s identifier
            { count := entry.count + 1, timestamp := entry.timestamp,
              windowMs := windowMs }) :=
  checkLimit_some s now identifier max windowMs entry h

/-- C2 witness: the characterization applied at a concrete stored entry
(count 1, timestamp 0, windowMs 100) and call (now 7, max 5, windowMs 10). -/
theorem checkLimit_expiry_uses_call_window_witness :
    Store.get [("k", { count := 1, timestamp := 0, windowMs := 100 })] "k" =
      some { count := 1, timestamp := 0, windowMs := 100 } ∧
    checkLimit [("k", { count := 1, timestamp := 0, windowMs := 100 })] 7 "k" 5 10 =
      if (0 : Int) + 10 < 7 then
        ({ success := true, remaining := 4, reset := 17, limit := 5 },
          Store.put [("k", { count := 1, timestamp := 0, windowMs := 100 })] "k"
            { count := 1, timestamp := 7, windowMs := 10 })
      else if (1 : Int) ≥ 5 then
        ({ success := false, remaining := 0, reset := 0 + 10, limit := 5 },
          [("k", { count := 1, timestamp := 0, windowMs := 100 })])
      else
        ({ success := true, remaining := 5 - (1 + 1), reset := 0 + 10, limit := 5 },
          Store.put [("k", { count := 1, timestamp := 0, windowMs := 100 })] "k"
            { count := 1 + 1, timestamp := 0, windowMs := 10 }) :=
  ⟨by decide,
    checkLimit_expiry_uses_call_window
      [("k", { count := 1, timestamp := 0, windowMs := 100 })] 7 "k" 5 10
      { count := 1, timestamp := 0, windowMs := 100 } (by decide)⟩

/-- C3 counterexample: stored entry with count 5, timestamp 0, stored
windowMs 100; a rejected call at now 50 passing windowMs 200 returns
reset 200 = entry.timestamp + the ARGUMENT windowMs, not
entry.timestamp + entry.windowMs = 100 as the claim states. -/
theorem checkLimit_reject_reset_stored_cex :
    (checkLimit [("k", { count := 5, timestamp := 0, windowMs := 100 })] 50 "k" 5 200).1.success
        = false ∧
    (checkLimit [("k", { count := 5, timestamp := 0, windowMs := 100 })] 50 "k" 5 200).1.reset
        = 200 ∧
    (200 : Int) ≠ 0 + 100 := by
  decide

/-- C3 (corrected): a call that finds a stored entry with an active window
(by the current call's windowMs argument) and entry.count at or above max
returns success false, remaining 0, limit max, and
reset = entry.timestamp + windowMs where windowMs is the ARGUMENT of the
current call (not the entry's stored window length), leaving storage
unchanged. -/
theorem checkLimit_reject_reset_call_window (s : Store) (now : Int)
    (identifier : String) (max windowMs : Int) (entry : RateLimitEntry)
    (h : Store.get s identifier = some entry)
    (hactive : ¬ entry.timestamp + windowMs < now)
    (hcount : entry.count ≥ max) :
    checkLimit s now identifier max windowMs =
      ({ success := false, remaining := 0,
          reset := entry.timestamp + windowMs, limit := max }, s) := by
  rw [checkLimit_some s now identifier max windowMs entry h,
    if_neg hactive, if_pos hcount]

/-- C3 witness: the reject characterization at the concrete store of the
counterexample (count 5 at max 5, active window, argument windowMs 200). -/
theorem checkLimit_reject_reset_call_window_witness :
    Store.get [("k", { count := 5, timestamp := 0, windowMs := 100 })] "k" =
      some { count := 5, timestamp := 0, windowMs := 100 } ∧
    ¬ ((0 : Int) + 200 < 50) ∧
    (5 : Int) ≥ 5 ∧
    checkLimit [("k", { count := 5, timestamp := 0, windowMs := 100 })] 50 "k" 5 200 =
      ({ success := false, remaining := 0, reset := 0 + 200, limit := 5 },
        [("k", { count := 5, timestamp := 0, windowMs := 100 })]) :=
  ⟨by decide, by decide, by decide,
    checkLimit_reject_reset_call_window
      [("k", { count := 5, timestamp := 0, windowMs := 100 })] 50 "k" 5 200
      { count := 5, timestamp := 0, windowMs := 100 }
      (by decide) (by decide) (by decide)⟩

/-- C4 counterexample: stored entry count 3, timestamp 0, stored windowMs
50; call at now 100 with max 3 and windowMs argument 100.  The claim's
hypothesis holds (100 is at or past timestamp + stored windowMs = 50), yet
the call is rejected (success false), because the code judges expiry by the
strict test timestamp < now - windowMs with the ARGUMENT windowMs:
0 < 100 - 100 is false, so the window is still active and count 3 at max 3
rejects.  This single input forces both corrections: replacing the stored
windowMs by the argument (100 is strictly past 0 + 50) and making the
comparison strict (100 equals 0 + 100 exactly). -/
theorem checkLimit_window_reset_boundary_cex :
    (100 : Int) ≥ 0 + 50 ∧
    (checkLimit [("k", { count := 3, timestamp := 0, windowMs := 50 })] 100 "k" 3 100).1.success
      = false := by
  decide

/-- C4 (corrected): for every stored entry and call time now STRICTLY past
entry.timestamp + windowMs, where windowMs is the ARGUMENT of the current
call, the call returns success true and remaining max - 1, regardless of
the stored count. -/
theorem checkLimit_window_reset_strict (s : Store) (now : Int)
    (identifier : String) (max windowMs : Int) (entry : RateLimitEntry)
    (h : Store.get s identifier = some entry)
    (helapsed : entry.timestamp + windowMs < now) :
    (checkLimit s now identifier max windowMs).1 =
      { success := true, remaining := max - 1, reset := now + windowMs, limit := max } := by
  rw [checkLimit_some s now identifier max windowMs entry h, if_pos helapsed]

/-- C4 witness: an entry at its cap (count 3 of max 3) whose window is
strictly past (timestamp 0, windowMs 50, now 51) is reset to success with
remaining max - 1. -/
theorem checkLimit_window_reset_strict_witness :
    Store.get [("k", { count := 3, timestamp := 0, windowMs := 50 })] "k" =
      some { count := 3, timestamp := 0, windowMs := 50 } ∧
    ((0 : Int) + 50 < 51) ∧
    (checkLimit [("k", { count := 3, timestamp := 0, windowMs := 50 })] 51 "k" 3 50).1 =
      { success := true, remaining := 3 - 1, reset := 51 + 50, limit := 3 } :=
  ⟨by decide, by decide,
    checkLimit_window_reset_strict
      [("k", { count := 3, timestamp := 0, windowMs := 50 })] 51 "k" 3 50
      { count := 3, timestamp := 0, windowMs := 50 } (by decide) (by decide)⟩

/-- C8 counterexample: checkLimit with the empty identifier performs no
validation at all: on empty storage at now 0 with max 5 and windowMs 1000
it returns an ordinary success result and writes an entry under the empty
string key, contradicting the claim that a validation error is surfaced
before any storage access and that no storage write occurs. -/
theorem checkLimit_empty_identifier_cex :
    (checkLimit [] 0 "" 5 1000).1 =
      { success := true, remaining := 4, reset := 1000, limit := 5 } ∧
    Store.get (checkLimit [] 0 "" 5 1000).2 "" =
      some { count := 1, timestamp := 0, windowMs := 1000 } := by
  decide

/-- C8 (corrected): checkLimit applies no identifier validation: a call
with the empty identifier is processed exactly like any other call,
reading storage and, when accepted, writing an entry under the empty
string key and returning a normal result rather than an error. (The
repository's empty-key rejection lives in the adapter layer, before
checkLimit is invoked.) -/
theorem checkLimit_empty_identifier_no_validation (now max windowMs : Int) :
    checkLimit [] now "" max windowMs =
      ({ success := true, remaining := max - 1, reset := now + windowMs, limit := max },
        [("", { count := 1, timestamp := now, windowMs := windowMs })]) := rfl

/-- C6 (confirmed): construction sets a deadline CLEANUP_INTERVAL_MS (12
hours) in the future when none exists and leaves an existing one
untouched, and every alarm() invocation unconditionally re-sets the
deadline to CLEANUP_INTERVAL_MS past its rescheduling-time Date.now()
read, for every storage content, even when nothing was deleted and even
when storage was empty. -/
theorem alarm_always_scheduled :
    (∀ now : Int, scheduleCleanup none now = some (now + CLEANUP_INTERVAL_MS)) ∧
    (∀ t now : Int, scheduleCleanup (some t) now = some t) ∧
    (∀ (s : Store) (now nowAtReschedule : Int),
      (alarm s now nowAtReschedule).alarmDeadline =
        some (nowAtReschedule + CLEANUP_INTERVAL_MS)) ∧
    CLEANUP_INTERVAL_MS = 12 * 60 * 60 * 1000 := by
  refine ⟨fun now => rfl, fun t now => rfl, fun s now n2 => ?_, rfl⟩
  unfold alarm
  dsimp only
  split <;> rfl

/-- C7 (confirmed): a checkLimit call leaves every storage key other than
the identifier unchanged, and a call returning success false leaves all of
storage unchanged, including the identifier's own entry. -/
theorem checkLimit_isolation (s : Store) (now : Int) (identifier : String)
    (max windowMs : Int) (k : String) (hk : k ≠ identifier) :
    Store.get (checkLimit s now identifier max windowMs).2 k = Store.get s k ∧
    ((checkLimit s now identifier max windowMs).1.success = false →
      (checkLimit s now identifier max windowMs).2 = s) := by
  cases hget : Store.get s identifier with
  | none =>
    rw [checkLimit_none s now identifier max windowMs hget]
    exact ⟨Store.get_put_ne s identifier _ k hk, by simp⟩
  | some entry =>
    rw [checkLimit_some s now identifier max windowMs entry hget]
    by_cases h1 : entry.timestamp + windowMs < now
    · rw [if_pos h1]
      exact ⟨Store.get_put_ne s identifier _ k hk, by simp⟩
    · rw [if_neg h1]
      by_cases h2 : entry.count ≥ max
      · rw [if_pos h2]
        exact ⟨rfl, fun _ => rfl⟩
      · rw [if_neg h2]
        exact ⟨Store.get_put_ne s identifier _ k hk, by simp⟩

/-- C7 witness: a rejected call (count 1 at max 1, window active) leaves
the other key and the whole storage unchanged. -/
theorem checkLimit_isolation_witness :
    ("other" : String) ≠ "k" ∧
    (Store.get
        (checkLimit [("k", { count := 1, timestamp := 0, windowMs := 100 })] 50 "k" 1 100).2
        "other" =
      Store.get [("k", { count := 1, timestamp := 0, windowMs := 100 })] "other" ∧
    ((checkLimit [("k", { count := 1, timestamp := 0, windowMs := 100 })] 50 "k" 1 100).1.success
        = false →
      (checkLimit [("k", { count := 1, timestamp := 0, windowMs := 100 })] 50 "k" 1 100).2 =
        [("k", { count := 1, timestamp := 0, windowMs := 100 })])) :=
  ⟨by decide,
    checkLimit_isolation [("k", { count := 1, timestamp := 0, windowMs := 100 })]
      50 "k" 1 100 "other" (by decide)⟩

/-- C10 (confirmed): checkLimit is deterministic: for a fixed storage
state, instant now and argument triple, any two runs return the same
result object and the same post-call storage. -/
theorem checkLimit_deterministic (s : Store) (now : Int) (identifier : String)
    (max windowMs : Int) (r1 r2 : RateLimitResult) (s1 s2 : Store)
    (h1 : checkLimit s now identifier max windowMs = (r1, s1))
    (h2 : checkLimit s now identifier max windowMs = (r2, s2)) :
    r1 = r2 ∧ s1 = s2 := by
  rw [h1] at h2
  exact ⟨congrArg Prod.fst h2, congrArg Prod.snd h2⟩

/-- C10 witness: two runs at storage empty, now 0, identifier a, max 2,
windowMs 5 agree. -/
theorem checkLimit_deterministic_witness :
    checkLimit [] 0 "a" 2 5 =
      ({ success := true, remaining := 1, reset := 5, limit := 2 },
        [("a", { count := 1, timestamp := 0, windowMs := 5 })]) ∧
    ({ success := true, remaining := 1, reset := 5, limit := 2 } : RateLimitResult) =
      { success := true, remaining := 1, reset := 5, limit := 2 } ∧
    ([("a", { count := 1, timestamp := 0, windowMs := 5 })] : Store) =
      [("a", { count := 1, timestamp := 0, windowMs := 5 })] :=
  ⟨by decide,
    checkLimit_deterministic [] 0 "a" 2 5 _ _ _ _ (by decide) (by decide)⟩

/-- A key collected as expired is a key of the storage. -/
theorem expiredKeys_subset (now : Int) (t : Store) (x : String)
    (hx : x ∈ (t.filter (fun p => expired now p.2)).map Prod.fst) :
    x ∈ t.map Prod.fst := by
  simp only [List.mem_map, List.mem_filter] at hx ⊢
  rcases hx with ⟨p, ⟨hp, _⟩, hpx⟩
  exact ⟨p, hp, hpx⟩

/-- Deleting exactly the keys collected as expired filters the storage down
to its non-expired entries, provided keys are pairwise distinct. -/
theorem deleteKeys_expired (now : Int) :
    ∀ s : Store, (s.map Prod.fst).Nodup →
      Store.deleteKeys s ((s.filter (fun p => expired now p.2)).map Prod.fst) =
        s.filter (fun p => !(expired now p.2)) := by
  intro s
  induction s with
  | nil => intro _; rfl
  | cons q t ih =>
    intro hnd
    obtain ⟨k, e⟩ := q
    rw [List.map_cons, List.nodup_cons] at hnd
    obtain ⟨hk, hnd'⟩ := hnd
    unfold Store.deleteKeys at ih ⊢
    by_cases hexp : expired now e
    · rw [show (((k, e) :: t).filter (fun p => expired now p.2)).map Prod.fst =
          k :: (t.filter (fun p => expired now p.2)).map Prod.fst from by
        simp [List.filter_cons, hexp]]
      rw [List.filter_cons, List.filter_cons]
      rw [show (!((k :: (t.filter (fun p => expired now p.2)).map Prod.fst).contains
          (k, e).1)) = false from by simp]
      rw [show (!(expired now (k, e).2)) = false from by simp [hexp]]
      simp only [Bool.false_eq_true, if_false]
      have htail :
          t.filter
              (fun p =>
                !((k :: (t.filter (fun p => expired now p.2)).map Prod.fst).contains p.1)) =
            t.filter
              (fun p => !((t.filter (fun p => expired now p.2)).map Prod.fst).contains p.1) := by
        refine List.filter_congr (fun p hp => ?_)
        have hne : (p.1 == k) = false := by
          refine beq_eq_false_iff_ne.mpr (fun hpk => hk ?_)
          have hmm : p.1 ∈ t.map Prod.fst := List.mem_map_of_mem Prod.fst hp
          exact hpk ▸ hmm
        simp [List.contains_cons, hne]
      rw [htail]
      exact ih hnd'
    · have hmem : k ∉ (t.filter (fun p => expired now p.2)).map Prod.fst :=
        fun h => hk (expiredKeys_subset now t k h)
      rw [show (((k, e) :: t).filter (fun p => expired now p.2)).map Prod.fst =
          (t.filter (fun p => expired now p.2)).map Prod.fst from by
        simp [List.filter_cons, hexp]]
      rw [List.filter_cons, List.filter_cons]
      rw [show (!(((t.filter (fun p => expired now p.2)).map Prod.fst).contains
          (k, e).1)) = true from by simp [hmem]]
      rw [show (!(expired now (k, e).2)) = true from by simp [hexp]]
      simp only [if_true]
      rw [ih hnd']

/-- C5 (confirmed): a single alarm() sweep at scan time now deletes exactly
the stored entries with entry.timestamp + entry.windowMs < now (the
post-sweep storage is the subsequence of non-expired bindings, keys and
values unchanged), collects exactly the expired keys, issues no delete
operation at all when that set is empty, and always reschedules. -/
theorem alarm_sweep_exact (s : Store) (now nowAtReschedule : Int)
    (hnd : (s.map Prod.fst).Nodup) :
    (alarm s now nowAtReschedule).store = s.filter (fun p => !(expired now p.2)) ∧
    (alarm s now nowAtReschedule).expiredKeys =
      (s.filter (fun p => expired now p.2)).map Prod.fst ∧
    ((alarm s now nowAtReschedule).expiredKeys = [] →
      (alarm s now nowAtReschedule).deleteCalled = false) ∧
    (alarm s now nowAtReschedule).alarmDeadline =
      some (nowAtReschedule + CLEANUP_INTERVAL_MS) := by
  unfold alarm
  dsimp only
  by_cases h : ((s.filter (fun p => expired now p.2)).map Prod.fst).length > 0
  · rw [if_pos h]
    refine ⟨deleteKeys_expired now s hnd, rfl, ?_, rfl⟩
    intro hnil
    dsimp only at hnil
    rw [hnil] at h
    simp at h
  · rw [if_neg h]
    have hnil : (s.filter (fun p => expired now p.2)).map Prod.fst = [] := by
      cases hfe : (s.filter (fun p => expired now p.2)).map Prod.fst with
      | nil => rfl
      | cons a l => rw [hfe] at h; simp at h
    have hfil : s.filter (fun p => expired now p.2) = [] := List.map_eq_nil_iff.mp hnil
    have hself : s.filter (fun p => !(expired now p.2)) = s := by
      refine List.filter_eq_self.mpr (fun p hp => ?_)
      have hnotexp := List.filter_eq_nil_iff.mp hfil p hp
      simp at hnotexp
      simp [hnotexp]
    exact ⟨hself.symm, rfl, fun _ => rfl, rfl⟩

/-- C5 witness: the spec scenario with entries A and B expired and C live
at scan time 100: A and B are deleted, C is untouched, the delete batch is
nonempty, and the alarm is re-set. -/
theorem alarm_sweep_exact_witness :
    (([("A", { count := 1, timestamp := 0, windowMs := 10 }),
        ("B", { count := 2, timestamp := 5, windowMs := 10 }),
        ("C", { count := 1, timestamp := 90, windowMs := 50 })] : Store).map Prod.fst).Nodup ∧
    ((alarm [("A", { count := 1, timestamp := 0, windowMs := 10 }),
        ("B", { count := 2, timestamp := 5, windowMs := 10 }),
        ("C", { count := 1, timestamp := 90, windowMs := 50 })] 100 100).store =
      ([("A", { count := 1, timestamp := 0, windowMs := 10 }),
        ("B", { count := 2, timestamp := 5, windowMs := 10 }),
        ("C", { count := 1, timestamp := 90, windowMs := 50 })] : Store).filter
          (fun p => !(expired 100 p.2)) ∧
    (alarm [("A", { count := 1, timestamp := 0, windowMs := 10 }),
        ("B", { count := 2, timestamp := 5, windowMs := 10 }),
        ("C", { count := 1, timestamp := 90, windowMs := 50 })] 100 100).expiredKeys =
      (([("A", { count := 1, timestamp := 0, windowMs := 10 }),
        ("B", { count := 2, timestamp := 5, windowMs := 10 }),
        ("C", { count := 1, timestamp := 90, windowMs := 50 })] : Store).filter
          (fun p => expired 100 p.2)).map Prod.fst ∧
    ((alarm [("A", { count := 1, timestamp := 0, windowMs := 10 }),
        ("B", { count := 2, timestamp := 5, windowMs := 10 }),
        ("C", { count := 1, timestamp := 90, windowMs := 50 })] 100 100).expiredKeys = [] →
      (alarm [("A", { count := 1, timestamp := 0, windowMs := 10 }),
        ("B", { count := 2, timestamp := 5, windowMs := 10 }),
        ("C", { count := 1, timestamp := 90, windowMs := 50 })] 100 100).deleteCalled = false) ∧
    (alarm [("A", { count := 1, timestamp := 0, windowMs := 10 }),
        ("B", { count := 2, timestamp := 5, windowMs := 10 }),
        ("C", { count := 1, timestamp := 90, windowMs := 50 })] 100 100).alarmDeadline =
      some (100 + CLEANUP_INTERVAL_MS)) :=
  ⟨by decide,
    alarm_sweep_exact
      [("A", { count := 1, timestamp := 0, windowMs := 10 }),
        ("B", { count := 2, timestamp := 5, windowMs := 10 }),
        ("C", { count := 1, timestamp := 90, windowMs := 50 })] 100 100 (by decide)⟩

/-- Positive counts are preserved by one checkLimit call: a fresh window
writes count 1, an accepted increment writes count + 1 of a present count,
and a rejection writes nothing. -/
theorem countsPos_checkLimit (s : Store) (now : Int) (identifier : String)
    (max windowMs : Int) (hs : countsPos s) :
    countsPos (checkLimit s now identifier max windowMs).2 := by
  cases hget : Store.get s identifier with
  | none =>
    rw [checkLimit_none s now identifier max windowMs hget]
    intro p hp
    rcases Store.mem_put s identifier _ p hp with h | h
    · subst h
      show (0 : Int) < 1
      norm_num
    · exact hs p h
  | some entry =>
    rw [checkLimit_some s now identifier max windowMs entry hget]
    by_cases h1 : entry.timestamp + windowMs < now
    · rw [if_pos h1]
      intro p hp
      rcases Store.mem_put s identifier _ p hp with h | h
      · subst h
        show (0 : Int) < 1
        norm_num
      · exact hs p h
    · rw [if_neg h1]
      by_cases h2 : entry.count ≥ max
      · rw [if_pos h2]
        exact hs
      · rw [if_neg h2]
        intro p hp
        rcases Store.mem_put s identifier _ p hp with h | h
        · subst h
          have hc : 0 < entry.count := hs _ (Store.get_mem s identifier entry hget)
          show 0 < entry.count + 1
          omega
        · exact hs p h

/-- Positive counts are preserved by one alarm sweep, which only deletes. -/
theorem countsPos_alarm (s : Store) (now nowAtReschedule : Int)
    (hs : countsPos s) : countsPos (alarm s now nowAtReschedule).store := by
  unfold alarm
  dsimp only
  split
  · intro p hp
    exact hs p (List.mem_of_mem_filter hp)
  · exact hs

/-- C9 (confirmed): starting from empty storage, after every sequence of
checkLimit calls and alarm sweeps, every entry present in storage has a
strictly positive count. -/
theorem counts_positive_invariant (ops : List Op) : countsPos (runOps [] ops) := by
  suffices h : ∀ s : Store, countsPos s → countsPos (runOps s ops) by
    refine h [] (fun p hp => absurd hp ?_)
    simp
  induction ops with
  | nil => exact fun s hs => hs
  | cons op rest ih =>
    intro s hs
    cases op with
    | check now identifier max windowMs =>
      exact ih _ (countsPos_checkLimit s now identifier max windowMs hs)
    | sweep now nowAtReschedule =>
      exact ih _ (countsPos_alarm s now nowAtReschedule hs)

/-- After k accepted calls (1 ≤ k ≤ max) of an in-window call sequence
opened on empty state, the stored entry for the identifier has count k,
the first call's timestamp, and the passed windowMs. -/
theorem runCalls_entry (s : Store) (times : Nat → Int) (identifier : String)
    (mn : Nat) (w : Int)
    (h0 : Store.get s identifier = none)
    (hin : ∀ k, k ≤ mn → times k ≤ times 0 + w) :
    ∀ k, k ≤ mn → 1 ≤ k →
      Store.get (runCalls s times identifier (mn : Int) w k) identifier =
        some { count := (k : Int), timestamp := times 0, windowMs := w } := by
  intro k
  induction k with
  | zero => intro _ h1; exact absurd h1 (by omega)
  | succ k ih =>
    intro hk _
    show Store.get (checkLimit (runCalls s times identifier (mn : Int) w k) (times k)
      identifier (mn : Int) w).2 identifier = _
    by_cases hk1 : 1 ≤ k
    · have hprev := ih (by omega) hk1
      rw [checkLimit_some _ _ _ _ _ _ hprev]
      have hle := hin k (by omega)
      have hnotexp : ¬ (({ count := (k : Int), timestamp := times 0, windowMs := w } :
          RateLimitEntry).timestamp + w < times k) := by
        dsimp only
        omega
      rw [if_neg hnotexp]
      have hklt : (k : Int) < (mn : Int) := by
        exact_mod_cast (show k < mn by omega)
      have hnotmax : ¬ (({ count := (k : Int), timestamp := times 0, windowMs := w } :
          RateLimitEntry).count ≥ (mn : Int)) := by
        dsimp only
        omega
      rw [if_neg hnotmax]
      dsimp only
      rw [Store.get_put_self]
      norm_cast
    · have hk0 : k = 0 := by omega
      subst hk0
      show Store.get (checkLimit s (times 0) identifier (mn : Int) w).2 identifier = _
      rw [checkLimit_none _ _ _ _ _ h0]
      rw [Store.get_put_self]
      norm_cast

/-- C1 (confirmed): for max at least 1, windowMs at least 1 and a fixed
identifier with no pre-existing entry, a sequence of max consecutive
checkLimit calls all made within the single window opened by the first
call (each call time at most first-call time plus windowMs) succeeds every
time with remaining taking the strictly decreasing values max-1, max-2,
..., 0, and the (max+1)-th call in the same window is rejected with
remaining 0. -/
theorem checkLimit_monotonic_boundary (s : Store) (times : Nat → Int)
    (identifier : String) (mn : Nat) (w : Int)
    (hm : 1 ≤ mn) (hw : (1 : Int) ≤ w)
    (h0 : Store.get s identifier = none)
    (hin : ∀ k, k ≤ mn → times k ≤ times 0 + w) :
    (∀ k, k < mn →
      (callResult s times identifier (mn : Int) w k).success = true ∧
      (callResult s times identifier (mn : Int) w k).remaining =
        (mn : Int) - ((k : Int) + 1)) ∧
    (callResult s times identifier (mn : Int) w mn).success = false ∧
    (callResult s times identifier (mn : Int) w mn).remaining = 0 := by
  have hentry := runCalls_entry s times identifier mn w h0 hin
  refine ⟨fun k hk => ?_, ?_⟩
  · by_cases hk1 : 1 ≤ k
    · have hprev := hentry k (by omega) hk1
      unfold callResult
      rw [checkLimit_some _ _ _ _ _ _ hprev]
      have hle := hin k (by omega)
      have hnotexp : ¬ (({ count := (k : Int), timestamp := times 0, windowMs := w } :
          RateLimitEntry).timestamp + w < times k) := by
        dsimp only
        omega
      rw [if_neg hnotexp]
      have hklt : (k : Int) < (mn : Int) := by
        exact_mod_cast hk
      have hnotmax : ¬ (({ count := (k : Int), timestamp := times 0, windowMs := w } :
          RateLimitEntry).count ≥ (mn : Int)) := by
        dsimp only
        omega
      rw [if_neg hnotmax]
      exact ⟨rfl, rfl⟩
    · have hk0 : k = 0 := by omega
      subst hk0
      unfold callResult
      show (checkLimit s (times 0) identifier (mn : Int) w).1.success = true ∧
        (checkLimit s (times 0) identifier (mn : Int) w).1.remaining =
          (mn : Int) - (((0 : Nat) : Int) + 1)
      rw [checkLimit_none _ _ _ _ _ h0]
      refine ⟨rfl, ?_⟩
      norm_num
  · have hfin := hentry mn (le_refl mn) hm
    unfold callResult
    rw [checkLimit_some _ _ _ _ _ _ hfin]
    have hle := hin mn (le_refl mn)
    have hnotexp : ¬ (({ count := (mn : Int), timestamp := times 0, windowMs := w } :
        RateLimitEntry).timestamp + w < times mn) := by
      dsimp only
      omega
    rw [if_neg hnotexp]
    have hmax : (({ count := (mn : Int), timestamp := times 0, windowMs := w } :
        RateLimitEntry).count ≥ (mn : Int)) := le_refl _
    rw [if_pos hmax]
    exact ⟨rfl, rfl⟩

/-- C1 witness: empty storage, identifier id, max 3, windowMs 10, all four
calls at instant 0: three successes with remaining 2, 1, 0, then a
rejection with remaining 0. -/
theorem checkLimit_monotonic_boundary_witness :
    1 ≤ 3 ∧ (1 : Int) ≤ 10 ∧
    Store.get [] "id" = none ∧
    (∀ k : Nat, k ≤ 3 → (fun _ : Nat => (0 : Int)) k ≤ (fun _ : Nat => (0 : Int)) 0 + 10) ∧
    ((∀ k, k < 3 →
      (callResult [] (fun _ => 0) "id" ((3 : Nat) : Int) 10 k).success = true ∧
      (callResult [] (fun _ => 0) "id" ((3 : Nat) : Int) 10 k).remaining =
        ((3 : Nat) : Int) - ((k : Int) + 1)) ∧
    (callResult [] (fun _ => 0) "id" ((3 : Nat) : Int) 10 3).success = false ∧
    (callResult [] (fun _ => 0) "id" ((3 : Nat) : Int) 10 3).remaining = 0) :=
  ⟨by norm_num, by norm_num, rfl, fun k hk => by norm_num,
    checkLimit_monotonic_boundary [] (fun _ => 0) "id" 3 10
      (by norm_num) (by norm_num) rfl (fun k hk => by norm_num)⟩

end OrpcDoRateLimiter
